import Mathlib

/-
  Verification of the CloudFormation registry-schema import core of the
  awscdk-service-spec repository.

  The importer `importCloudFormationRegistryResource` is exercised by the
  test-suite contained in the repository sources; the importer itself is
  modelled here from the specification (reference resolution, type building,
  requiredness merging, read-only/create-only classification and
  immutability propagation).  The code-generation side helper
  `TypeConverter.typeFromSpecType` is embedded directly from its source.
-/

namespace CfnRegistry

/-- Modelled from the spec: a registry schema node, holding the recognized
fields `type`, `$ref`, `properties`, `items`, `required`, `oneOf`, `anyOf`
and `allOf` (the importer source file is not part of the sources, only its
test-suite is). -/
inductive SchemaNode : Type where
  | mk
      (type : Option String)
      (ref : Option String)
      (properties : List (String × SchemaNode))
      (items : Option SchemaNode)
      (required : Option (List String))
      (oneOf : List SchemaNode)
      (anyOf : List SchemaNode)
      (allOf : List SchemaNode)

def SchemaNode.type : SchemaNode → Option String
  | .mk t _ _ _ _ _ _ _ => t

def SchemaNode.ref : SchemaNode → Option String
  | .mk _ r _ _ _ _ _ _ => r

def SchemaNode.properties : SchemaNode → List (String × SchemaNode)
  | .mk _ _ ps _ _ _ _ _ => ps

def SchemaNode.items : SchemaNode → Option SchemaNode
  | .mk _ _ _ it _ _ _ _ => it

def SchemaNode.required : SchemaNode → Option (List String)
  | .mk _ _ _ _ rq _ _ _ => rq

def SchemaNode.oneOf : SchemaNode → List SchemaNode
  | .mk _ _ _ _ _ o _ _ => o

def SchemaNode.anyOf : SchemaNode → List SchemaNode
  | .mk _ _ _ _ _ _ a _ => a

def SchemaNode.allOf : SchemaNode → List SchemaNode
  | .mk _ _ _ _ _ _ _ al => al

/-- Modelled from the spec: the closed `PropertyType` variant of the resource
model.  `ref` holds the handle (database id) of a `TypeDefinition`. -/
inductive PropType : Type where
  | string
  | number
  | boolean
  | json
  | array (element : PropType)
  | map (element : PropType)
  | ref (id : Nat)
  | builtIn (kind : String)
deriving DecidableEq, Repr

/-- Modelled from the spec: the tri-state `causesReplacement` flag. -/
inductive CausesReplacement : Type where
  | yes
  | no
  | unspecified
deriving DecidableEq, Repr

/-- Modelled from the spec: a `Property` of a resource or of a type
definition. -/
structure ResProperty : Type where
  type : PropType
  required : Bool
  causesReplacement : CausesReplacement := .unspecified
deriving DecidableEq, Repr

/-- Modelled from the spec: a named reusable `TypeDefinition` with a mapping
of field name to `Property`. -/
structure TypeDef : Type where
  name : String
  properties : List (String × ResProperty)
deriving DecidableEq, Repr

/-- Modelled from the spec: the fatal import error, raised when a `$ref`
pointer does not resolve within the schema document. -/
structure RefNotFound : Type where
  ref : String
deriving DecidableEq, Repr

/-- Modelled from the spec: mutable state of one resource import: the type
definition table of the database, the fresh-id counter, the visited-`$ref`
cache of the import context, the `usesType` targets recorded for the
resource, and the accumulated non-fatal problem reports. -/
structure ImportCtx : Type where
  typeDefs : List (Nat × TypeDef)
  nextId : Nat
  visited : List (String × Nat)
  uses : List Nat
  problems : List String
deriving DecidableEq, Repr

/-- Modelled from the spec: a `Resource` entity: property mapping, attribute
mapping and the ordered replacement-path descriptors. -/
structure ResourceEnt : Type where
  cloudFormationType : String
  properties : List (String × ResProperty)
  attributes : List (String × PropType)
  additionalReplacementProperties : List (List String)
deriving DecidableEq, Repr

/-- Modelled from the spec: the entity/relation store shared across imports. -/
structure Db : Type where
  resources : List ResourceEnt
  typeDefs : List (Nat × TypeDef)
  usesType : List (String × Nat)
  nextId : Nat
deriving DecidableEq, Repr

/-- Modelled from the spec: an empty database. -/
def emptyDatabase : Db :=
  { resources := [], typeDefs := [], usesType := [], nextId := 0 }

/-- Modelled from the spec: the outcome of one import call: the database
after the call, the problem report, and the fatal error when the import
aborted. -/
structure ImportOutcome : Type where
  db : Db
  report : List String
  fatalError : Option RefNotFound
deriving DecidableEq, Repr

/-- Association-list lookup on decidable keys. -/
def lookup1 {α β : Type} [DecidableEq α] : List (α × β) → α → Option β
  | [], _ => none
  | (k, v) :: rest, key => if k = key then some v else lookup1 rest key

/-- Association-list in-place update of the entries stored under one key. -/
def updateAt {α β : Type} [DecidableEq α] : List (α × β) → α → (β → β) → List (α × β)
  | [], _, _ => []
  | (k, v) :: rest, key, g => (k, if k = key then g v else v) :: updateAt rest key g

/-- Modelled from the spec: structural pointer lookup for a `$ref` of the
form `#/definitions/Name` within the current document. -/
def refTarget (defs : List (String × SchemaNode)) (r : String) : Option SchemaNode :=
  if "#/definitions/".data.isPrefixOf r.data then lookup1 defs (r.drop 14) else none

/-- Modelled from the spec: the definition name designated by a `$ref`. -/
def refName (r : String) : String := r.drop 14

/-- Modelled from the spec: set intersection across an ordered sequence of
branch required-lists, starting from the first list. -/
def interAll (b : List String) (bs : List (List String)) : List String :=
  bs.foldl (fun acc l => acc.filter (fun x => decide (x ∈ l))) b

/-- Modelled from the spec: the final required set: (own required) union
(intersection across all branch required-lists, when at least one branch
set exists). -/
def finalRequired (own : List String) (branches : List (List String)) : List String :=
  match branches with
  | [] => own
  | b :: bs => own ++ (interAll b bs).filter (fun x => decide (x ∉ own))

/-- Modelled from the spec: the required list contributed by one branch
schema: a branch holding only a `$ref` is resolved first and its own
required list folded in. -/
def branchRequired (defs : List (String × SchemaNode)) (b : SchemaNode) : Option (List String) :=
  match b.ref with
  | some r => (refTarget defs r).bind (fun t => t.required)
  | none => b.required

/-- Modelled from the spec: a node's own required list extended, as a plain
union, by the required lists of its `allOf` members. -/
def ownRequired (defs : List (String × SchemaNode)) (n : SchemaNode) : List String :=
  n.required.getD [] ++ n.allOf.foldr (fun b acc => (branchRequired defs b).getD [] ++ acc) []

/-- Modelled from the spec: the final required set of a schema node, merging
`required`, `oneOf`, `anyOf` and `allOf`. -/
def requiredOf (defs : List (String × SchemaNode)) (n : SchemaNode) : List String :=
  finalRequired (ownRequired defs n) ((n.oneOf ++ n.anyOf).filterMap (branchRequired defs))

/-- Modelled from the spec: whether a schema node has object shape. -/
def SchemaNode.objectLike (n : SchemaNode) : Bool :=
  n.type == some "object" || (n.type == none && !n.properties.isEmpty)

/-- A request processed by the schema-tree walk: translate one node, or
build the field list of an object. -/
inductive BuildJob : Type where
  | one (hint : String) (node : SchemaNode)
  | fields (req : List String) (l : List (String × SchemaNode))

/-- The result of a `BuildJob`. -/
inductive BuildOut : Type where
  | one (t : PropType)
  | fields (fs : List (String × ResProperty))
deriving DecidableEq, Repr

def BuildOut.typeOf : BuildOut → PropType
  | .one t => t
  | .fields _ => .json

def BuildOut.fieldsOf : BuildOut → List (String × ResProperty)
  | .fields fs => fs
  | .one _ => []

/-- Modelled from the spec: record a `usesType` relation once per distinct
target. -/
def recordUse (ctx : ImportCtx) (id : Nat) : ImportCtx :=
  if id ∈ ctx.uses then ctx else { ctx with uses := ctx.uses ++ [id] }

/-- Modelled from the spec: report a non-fatal problem. -/
def addProblem (ctx : ImportCtx) (msg : String) : ImportCtx :=
  { ctx with problems := ctx.problems ++ [msg] }

/-- Modelled from the spec: register a fresh, still empty `TypeDefinition`
entity before its fields are populated. -/
def allocTypeDef (ctx : ImportCtx) (nm : String) : ImportCtx :=
  { ctx with
    typeDefs := ctx.typeDefs ++ [(ctx.nextId, { name := nm, properties := [] })],
    nextId := ctx.nextId + 1 }

/-- Modelled from the spec: fill in the fields of an already registered
`TypeDefinition` entity. -/
def setTypeDefProps (ctx : ImportCtx) (id : Nat) (fs : List (String × ResProperty)) : ImportCtx :=
  { ctx with typeDefs := updateAt ctx.typeDefs id (fun td => { td with properties := fs }) }

/-- Modelled from the spec: one step of the `TypeBuilder` walk, with `rec`
standing for the walk at the next smaller recursion budget. -/
def buildStep (defs : List (String × SchemaNode))
    (rec : BuildJob → ImportCtx → Except RefNotFound (BuildOut × ImportCtx)) :
    BuildJob → ImportCtx → Except RefNotFound (BuildOut × ImportCtx)
  | .one hint node, ctx =>
    match node.ref with
    | some r =>
      match refTarget defs r with
      | none => .error { ref := r }
      | some target =>
        match lookup1 ctx.visited r with
        | some id => .ok (.one (.ref id), recordUse ctx id)
        | none =>
          if target.objectLike && !target.properties.isEmpty then
            match rec (.fields (requiredOf defs target) target.properties)
                (recordUse
                  { allocTypeDef ctx (refName r) with
                    visited := ctx.visited ++ [(r, ctx.nextId)] } ctx.nextId) with
            | .error e => .error e
            | .ok (out, ctx2) =>
              .ok (.one (.ref ctx.nextId), setTypeDefProps ctx2 ctx.nextId out.fieldsOf)
          else
            rec (.one hint target) ctx
    | none =>
      if node.type = some "array" then
        match node.items with
        | some it =>
          match rec (.one (hint ++ "Items") it) ctx with
          | .error e => .error e
          | .ok (out, ctx2) => .ok (.one (.array out.typeOf), ctx2)
        | none => .ok (.one (.array .json), addProblem ctx ("array without items at " ++ hint))
      else if node.type = some "string" then .ok (.one .string, ctx)
      else if node.type = some "integer" then .ok (.one .number, ctx)
      else if node.type = some "number" then .ok (.one .number, ctx)
      else if node.type = some "boolean" then .ok (.one .boolean, ctx)
      else if node.objectLike then
        if node.properties.isEmpty then
          .ok (.one .json, ctx)
        else
          match rec (.fields (requiredOf defs node) node.properties)
              (recordUse (allocTypeDef ctx hint) ctx.nextId) with
          | .error e => .error e
          | .ok (out, ctx2) =>
            .ok (.one (.ref ctx.nextId), setTypeDefProps ctx2 ctx.nextId out.fieldsOf)
      else
        .ok (.one .json, addProblem ctx ("unmodeled schema shape at " ++ hint))
  | .fields _ [], ctx => .ok (.fields [], ctx)
  | .fields req ((n, s) :: rest), ctx =>
    match rec (.one n s) ctx with
    | .error e => .error e
    | .ok (o1, ctx1) =>
      match rec (.fields req rest) ctx1 with
      | .error e => .error e
      | .ok (o2, ctx2) =>
        .ok (.fields ((n,
          { type := o1.typeOf,
            required := decide (n ∈ req),
            causesReplacement := .unspecified }) :: o2.fieldsOf), ctx2)

/-- Modelled from the spec: the `TypeBuilder` walk converting a schema node
into a `PropertyType`, synthesizing, naming and deduplicating nested type
definitions.  Reference targets already resolved in this import are reused
through the visited cache; a new type definition is registered before its
fields are populated; only object-shaped nodes with a non-empty declared
property set become type definitions; a `$ref` that does not resolve aborts
with `RefNotFound`; every other irregular shape degrades to `json` plus a
reported problem.  Recursion is bounded by an explicit budget; budget
exhaustion also degrades to `json` plus a reported problem. -/
def build (defs : List (String × SchemaNode)) :
    Nat → BuildJob → ImportCtx → Except RefNotFound (BuildOut × ImportCtx)
  | 0 => fun job ctx =>
    match job with
    | .one _ _ => .ok (.one .json, addProblem ctx "schema recursion budget exhausted")
    | .fields _ _ => .ok (.fields [], addProblem ctx "schema recursion budget exhausted")
  | f + 1 => buildStep defs (build defs f)

/-- Modelled from the spec: `typeFromSchemaNode(node, namingContext)` of the
`TypeBuilder`. -/
def typeFromSchemaNode (defs : List (String × SchemaNode)) (fuel : Nat)
    (hint : String) (node : SchemaNode) (ctx : ImportCtx) :
    Except RefNotFound (BuildOut × ImportCtx) :=
  build defs fuel (.one hint node) ctx

/-- Split a character list on slashes. -/
def splitSlashAux : List Char → List Char → List String
  | [], acc => [String.mk acc.reverse]
  | c :: rest, acc =>
    if c = '/' then String.mk acc.reverse :: splitSlashAux rest []
    else splitSlashAux rest (c :: acc)

/-- Modelled from the spec: split a pointer-like path on slashes, dropping
empty segments. -/
def pathSegs (p : String) : List String :=
  (splitSlashAux p.data []).filter (fun s => !(s == ""))

/-- Modelled from the spec: the property segments of a
`/properties/...` path. -/
def propPath (p : String) : List String :=
  match pathSegs p with
  | "properties" :: rest => rest
  | l => l

/-- Modelled from the spec: whether a declared property is covered by a
read-only-only path (listed in `readOnlyProperties` and not in
`createOnlyProperties`). -/
def roOnly (ro co : List String) (n : String) : Bool :=
  decide (("/properties/" ++ n) ∈ ro) && !decide (("/properties/" ++ n) ∈ co)

/-- Modelled from the spec: the final property mapping: every declared
property not fully covered by a read-only-only path. -/
def finalProperties (props : List (String × ResProperty)) (ro co : List String) :
    List (String × ResProperty) :=
  props.filter (fun np => !(roOnly ro co np.1))

/-- Modelled from the spec: resolve the declared type found at the end of a
property path, descending through type-definition handles and through `*`
wildcard array-element segments. -/
def resolvePathType (tds : List (Nat × TypeDef)) : PropType → List String → PropType
  | t, [] => t
  | t, seg :: rest =>
    if seg = "*" then
      match t with
      | .array e => resolvePathType tds e rest
      | _ => .json
    else
      match t with
      | .ref id =>
        match lookup1 tds id with
        | some td =>
          match lookup1 td.properties seg with
          | some p => resolvePathType tds p.type rest
          | none => .json
        | none => .json
      | _ => .json

/-- Modelled from the spec: the declared type at a property path, starting
from the resource's declared properties. -/
def topResolve (tds : List (Nat × TypeDef)) (props : List (String × ResProperty)) :
    List String → PropType
  | [] => .json
  | x :: rest =>
    match lookup1 props x with
    | some pr => resolvePathType tds pr.type rest
    | none => .json

/-- Modelled from the spec: the final attribute mapping: one entry per
read-only path not also listed in `createOnlyProperties`, named by joining
the path's property segments with a dot. -/
def attributesOf (tds : List (Nat × TypeDef)) (props : List (String × ResProperty))
    (ro co : List String) : List (String × PropType) :=
  (ro.filter (fun p => !decide (p ∈ co))).map (fun p =>
    (String.intercalate "." (propPath p), topResolve tds props (propPath p)))

/-- Modelled from the spec: set `causesReplacement = yes` on one named entry
of a property mapping. -/
def setPropReplacement (props : List (String × ResProperty)) (nm : String) :
    List (String × ResProperty) :=
  updateAt props nm (fun p => { p with causesReplacement := .yes })

/-- Modelled from the spec: set `causesReplacement = yes` on a field of a
shared `TypeDefinition` entity. -/
def setFieldReplacement (ctx : ImportCtx) (id : Nat) (fname : String) : ImportCtx :=
  { ctx with
    typeDefs := updateAt ctx.typeDefs id
      (fun td => { td with properties := setPropReplacement td.properties fname }) }

/-- Modelled from the spec: whether a declared property is the resource's
tag-like collection: an array of a type definition with paired `Key` and
`Value` fields. -/
def isTagCollection (ctx : ImportCtx) (props : List (String × ResProperty)) (nm : String) : Bool :=
  match lookup1 props nm with
  | some pr =>
    match pr.type with
    | .array (.ref id) =>
      match lookup1 ctx.typeDefs id with
      | some td => (lookup1 td.properties "Key").isSome && (lookup1 td.properties "Value").isSome
      | none => false
    | _ => false
  | none => false

/-- Modelled from the spec: walk a `createOnlyProperties` path below a
property into the referenced type definitions, stepping through `*`
wildcard array-element segments, and mark the named field replacement-
causing within the shared entity. -/
def markReplacementPath : ImportCtx → PropType → List String → ImportCtx
  | ctx, _, [] => ctx
  | ctx, t, seg :: rest =>
    if seg = "*" then
      match t with
      | .array e => markReplacementPath ctx e rest
      | _ => ctx
    else
      match t with
      | .ref id =>
        match rest with
        | [] => setFieldReplacement ctx id seg
        | _ :: _ =>
          match lookup1 ctx.typeDefs id with
          | some td =>
            match lookup1 td.properties seg with
            | some p => markReplacementPath ctx p.type rest
            | none => ctx
          | none => ctx
      | _ => ctx

/-- Modelled from the spec: propagation of one `createOnlyProperties` path:
a path naming a top-level property marks it directly; a path traversing the
tag-like collection only appends its segments to
`additionalReplacementProperties`; any other descending path marks the
reached field of the shared type definition. -/
def propagateSegs (ctx : ImportCtx) (props : List (String × ResProperty))
    (addl : List (List String)) :
    List String → ImportCtx × List (String × ResProperty) × List (List String)
  | [] => (ctx, props, addl)
  | p :: rest =>
    match rest with
    | [] => (ctx, setPropReplacement props p, addl)
    | _ :: _ =>
      if isTagCollection ctx props p then (ctx, props, addl ++ [p :: rest])
      else
        match lookup1 props p with
        | some pr => (markReplacementPath ctx pr.type rest, props, addl)
        | none => (ctx, props, addl)

/-- Modelled from the spec: the `ImmutabilityPropagator` pass over all
`createOnlyProperties` paths. -/
def propagateList : ImportCtx → List (String × ResProperty) → List (List String) →
    List String → ImportCtx × List (String × ResProperty) × List (List String)
  | ctx, props, addl, [] => (ctx, props, addl)
  | ctx, props, addl, path :: rest =>
    match propagateSegs ctx props addl (propPath path) with
    | (c2, p2, a2) => propagateList c2 p2 a2 rest

/-- Modelled from the spec: a registry resource document with its recognized
fields. -/
structure RegistryResource : Type where
  typeName : String
  description : String := ""
  properties : List (String × SchemaNode)
  definitions : List (String × SchemaNode) := []
  required : Option (List String) := none
  oneOf : List SchemaNode := []
  anyOf : List SchemaNode := []
  allOf : List SchemaNode := []
  readOnlyProperties : List String := []
  createOnlyProperties : List String := []

/-- Modelled from the spec: the resource document seen as an object-shaped
schema node, for requiredness merging at the resource level. -/
def RegistryResource.asNode (res : RegistryResource) : SchemaNode :=
  .mk (some "object") none res.properties none res.required res.oneOf res.anyOf res.allOf

/-- Modelled from the spec: the recursion budget of one import, generous for
the single-pass traversal of the handed-in document. -/
def importFuel (res : RegistryResource) : Nat :=
  64 + 8 * (res.definitions.length + res.properties.length)

/-- Modelled from the spec: the fresh import context over a database: the
shared type-definition table and id counter, with an empty visited cache,
no recorded uses and no problems. -/
def ctx0Of (db : Db) : ImportCtx :=
  { typeDefs := db.typeDefs, nextId := db.nextId, visited := [], uses := [], problems := [] }

/-- Modelled from the spec: one resource import against the database,
propagating the fatal `RefNotFound` error. -/
def importResourceInner (db : Db) (res : RegistryResource) : Except RefNotFound (Db × List String) :=
  match build res.definitions (importFuel res)
      (.fields (requiredOf res.definitions res.asNode) res.properties) (ctx0Of db) with
  | .error e => .error e
  | .ok (out, ctx) =>
    .ok ({ resources := db.resources ++
            [{ cloudFormationType := res.typeName,
               properties := (propagateList ctx
                 (finalProperties out.fieldsOf res.readOnlyProperties res.createOnlyProperties)
                 [] res.createOnlyProperties).2.1,
               attributes := attributesOf ctx.typeDefs out.fieldsOf
                 res.readOnlyProperties res.createOnlyProperties,
               additionalReplacementProperties := (propagateList ctx
                 (finalProperties out.fieldsOf res.readOnlyProperties res.createOnlyProperties)
                 [] res.createOnlyProperties).2.2 }],
           typeDefs := (propagateList ctx
             (finalProperties out.fieldsOf res.readOnlyProperties res.createOnlyProperties)
             [] res.createOnlyProperties).1.typeDefs,
           usesType := db.usesType ++ (propagateList ctx
             (finalProperties out.fieldsOf res.readOnlyProperties res.createOnlyProperties)
             [] res.createOnlyProperties).1.uses.map (fun i => (res.typeName, i)),
           nextId := (propagateList ctx
             (finalProperties out.fieldsOf res.readOnlyProperties res.createOnlyProperties)
             [] res.createOnlyProperties).1.nextId },
         (propagateList ctx
           (finalProperties out.fieldsOf res.readOnlyProperties res.createOnlyProperties)
           [] res.createOnlyProperties).1.problems)

/-- Modelled from the spec: the import call of one resource schema document.
A fatal `RefNotFound` failure leaves the database without any partially
inserted entity; every non-fatal irregularity is surfaced through the
problem report. -/
def importCloudFormationRegistryResource (db : Db) (res : RegistryResource) : ImportOutcome :=
  match importResourceInner db res with
  | .ok (db2, probs) => { db := db2, report := probs, fatalError := none }
  | .error e => { db := db, report := [], fatalError := some e }

/-- Modelled from the spec: traverse the `usesType` relation from a resource
entity to the type definitions it uses. -/
def Db.follow (db : Db) (nm : String) : List TypeDef :=
  (db.usesType.filter (fun p => p.1 == nm)).filterMap (fun p => lookup1 db.typeDefs p.2)

/-- Modelled from the spec: field-equality lookup of a resource entity. -/
def Db.lookupResource (db : Db) (nm : String) : Option ResourceEnt :=
  db.resources.find? (fun r => r.cloudFormationType == nm)

/-- A string-typed schema node. -/
def strN : SchemaNode := .mk (some "string") none [] none none [] [] []

/-- An integer-typed schema node. -/
def intN : SchemaNode := .mk (some "integer") none [] none none [] [] []

/-- An object schema node with declared properties. -/
def objN (ps : List (String × SchemaNode)) : SchemaNode :=
  .mk (some "object") none ps none none [] [] []

/-- An object schema node with declared properties and an own required
list. -/
def objReqN (ps : List (String × SchemaNode)) (rq : List String) : SchemaNode :=
  .mk (some "object") none ps none (some rq) [] [] []

/-- An object schema node with declared properties and `anyOf` branches. -/
def objAnyOfN (ps : List (String × SchemaNode)) (branches : List SchemaNode) : SchemaNode :=
  .mk (some "object") none ps none none [] branches []

/-- An array schema node with an item schema. -/
def arrN (it : SchemaNode) : SchemaNode :=
  .mk (some "array") none [] (some it) none [] [] []

/-- A pure `$ref` schema node. -/
def refN (r : String) : SchemaNode := .mk none (some r) [] none none [] [] []

/-- A branch schema node holding only a required list. -/
def reqOnlyN (rq : List String) : SchemaNode := .mk none none [] none (some rq) [] [] []

/-- The `exclude readOnlyProperties from properties` test resource. -/
def testReadOnly : RegistryResource :=
  { typeName := "AWS::Some::Type",
    properties := [("Property", strN), ("Id", strN)],
    readOnlyProperties := ["/properties/Id"] }

/-- The test resource with a path both read-only and create-only. -/
def testReadOnlyCreateOnly : RegistryResource :=
  { typeName := "AWS::Some::Type",
    properties := [("Id", strN), ("ReplacementProperty", strN)],
    readOnlyProperties := ["/properties/Id", "/properties/ReplacementProperty"],
    createOnlyProperties := ["/properties/ReplacementProperty"] }

/-- The `compound readOnlyProperties` test resource. -/
def testCompound : RegistryResource :=
  { typeName := "AWS::Some::Type",
    properties := [("CompoundProp", refN "#/definitions/CompoundProp")],
    definitions := [("CompoundProp", objN [("Id", strN), ("Property", strN)])],
    readOnlyProperties :=
      ["/properties/CompoundProp", "/properties/CompoundProp/Id",
       "/properties/CompoundProp/Property"] }

/-- The `anonymous types are named after their property` test resource. -/
def testBanana : RegistryResource :=
  { typeName := "AWS::Some::Type",
    properties := [("Banana", objReqN [("color", strN)] ["color"])] }

/-- The anonymous-type-in-a-collection test resource. -/
def testBananas : RegistryResource :=
  { typeName := "AWS::Some::Type",
    properties := [("Bananas", arrN (objReqN [("color", strN)] ["color"]))] }

/-- The `reference types are correctly named` test resource: two properties
referencing the same definition. -/
def testRefNamed : RegistryResource :=
  { typeName := "AWS::Some::Type",
    definitions := [("Property", objReqN [("Name", strN)] ["Name"])],
    properties :=
      [("PropertyList", arrN (refN "#/definitions/Property")),
       ("PropertySingular", refN "#/definitions/Property"),
       ("Id", strN)],
    readOnlyProperties := ["/properties/Id"] }

/-- The `read required properties from allOf/anyOf` test resource, with
`oneOf` branch required lists at the resource level. -/
def testOneOfRequired : RegistryResource :=
  { typeName := "AWS::Test::Resource",
    properties := [("Mutex1", strN), ("Mutex2", strN), ("InBoth", strN)],
    oneOf := [reqOnlyN ["Mutex1", "InBoth"], reqOnlyN ["Mutex2", "InBoth"]] }

/-- The `anyOf containing a list of required properties` test resource. -/
def testAnyOfRequired : RegistryResource :=
  { typeName := "AWS::anyOf::Required",
    properties :=
      [("DataSourceConfiguration", objAnyOfN
        [("prop1", objReqN [("subprop1", strN), ("subprop2", intN)] ["subprop1", "subprop2"]),
         ("prop2", objReqN [("subprop1", strN), ("subprop2", intN)] ["subprop1", "subprop2"])]
        [reqOnlyN ["prop1"], reqOnlyN ["prop2"]])] }

/-- The `only object types get type definitions` test resource. -/
def testOnlyObjects : RegistryResource :=
  { typeName := "AWS::Test::Resource",
    properties :=
      [("Prop1", refN "#/definitions/Type1"),
       ("Prop2", refN "#/definitions/Type2"),
       ("Prop3", refN "#/definitions/Type3")],
    definitions :=
      [("Type1", arrN strN),
       ("Type2", objN []),
       ("Type3", objN [("field", strN)])] }

/-- The `import immutability` test resource. -/
def testImmutability : RegistryResource :=
  { typeName := "AWS::Test::Resource",
    properties :=
      [("Prop1", strN),
       ("Prop2", refN "#/definitions/Type1"),
       ("Prop3", arrN (refN "#/definitions/Type2"))],
    definitions :=
      [("Type1", objN [("ImmutableField", strN)]),
       ("Type2", objN [("ImmutableField", strN)])],
    createOnlyProperties :=
      ["/properties/Prop1", "/properties/Prop2/ImmutableField",
       "/properties/Prop3/*/ImmutableField"] }

/-- The `import immutability on tags` test resource. -/
def testTags : RegistryResource :=
  { typeName := "AWS::Test::Resource",
    properties := [("Tags", arrN (refN "#/definitions/Tag"))],
    definitions := [("Tag", objReqN [("Key", strN), ("Value", strN)] ["Key", "Value"])],
    createOnlyProperties := ["/properties/Tags/*/Key"] }

/-- A resource whose only property references a missing definition. -/
def testBadRef : RegistryResource :=
  { typeName := "AWS::Bad::Ref",
    properties := [("Broken", refN "#/definitions/Missing")] }

/-- A concrete import state with one visited reference, used as a witness
input. -/
def cacheCtxW : ImportCtx :=
  { typeDefs := [], nextId := 1, visited := [("#/definitions/A", 0)], uses := [0],
    problems := [] }

/-- A concrete import state holding one Tag-shaped type definition, used as
a witness input. -/
def tagCtxW : ImportCtx :=
  { typeDefs := [(0, { name := "Tag", properties :=
      [("Key", { type := .string, required := true }),
       ("Value", { type := .string, required := true })] })],
    nextId := 1, visited := [], uses := [], problems := [] }

/-- A concrete property mapping with a tag-like collection property, used as
a witness input. -/
def tagPropsW : List (String × ResProperty) :=
  [("Tags", { type := .array (.ref 0), required := false })]

/-- An empty import state, used as a witness input. -/
def emptyCtxW : ImportCtx :=
  { typeDefs := [], nextId := 0, visited := [], uses := [], problems := [] }

/-- Well-formedness of the import state: the recorded `usesType` targets are
pairwise distinct, the type-definition table has pairwise distinct ids, and
every stored id is below the fresh-id counter. -/
def CtxInv (ctx : ImportCtx) : Prop :=
  ctx.uses.Nodup ∧ (ctx.typeDefs.map Prod.fst).Nodup ∧
    ∀ i ∈ ctx.typeDefs.map Prod.fst, i < ctx.nextId

/-- Evolution order on import states: the fresh-id counter grows and every
registered type definition stays registered under its id with its name. -/
def CtxLe (c c' : ImportCtx) : Prop :=
  c.nextId ≤ c'.nextId ∧
  ∀ i td, lookup1 c.typeDefs i = some td →
    ∃ td', lookup1 c'.typeDefs i = some td' ∧ td'.name = td.name

/-- Well-formedness of the shared database: distinct type-definition ids,
all below the fresh-id counter. -/
def DbInv (db : Db) : Prop :=
  (db.typeDefs.map Prod.fst).Nodup ∧ ∀ i ∈ db.typeDefs.map Prod.fst, i < db.nextId

/-- Postcondition of one `build` step: a successful step preserves the state
invariant and only evolves the state; a failing step names a pointer that
does not resolve within the document. -/
def BuildPost (defs : List (String × SchemaNode)) (ctx : ImportCtx) :
    Except RefNotFound (BuildOut × ImportCtx) → Prop
  | .ok (_, c') => CtxInv c' ∧ CtxLe ctx c'
  | .error e => refTarget defs e.ref = none

end CfnRegistry

namespace CodeGen

open CfnRegistry in
/-- The generated-code type model used by `TypeConverter`
(`@cdklabs/typewriter` types, plus the `CDK_CORE.CfnTag` built-in). -/
inductive GenType : Type where
  | string
  | number
  | boolean
  | any
  | arrayOf (t : GenType)
  | mapOf (t : GenType)
  | cfnTag
deriving DecidableEq, Repr

/-- `TypeConverter.typeFromSpecType`, embedded from the source: `string`,
`number` and `boolean` map to the primitive types, `array` and `map` map
recursively over their element, `ref` consults the database (modelled by
the `refType` argument, `none` standing for a failing lookup), `builtIn`
with kind `tag` maps to `CDK_CORE.CfnTag` and every remaining shape falls
through to `Type.ANY`. -/
def typeFromSpecType (refType : Nat → Option GenType) : CfnRegistry.PropType → Option GenType
  | .string => some .string
  | .number => some .number
  | .boolean => some .boolean
  | .array e => (typeFromSpecType refType e).map .arrayOf
  | .map e => (typeFromSpecType refType e).map .mapOf
  | .ref id => refType id
  | .builtIn k => some (if k == "tag" then .cfnTag else .any)
  | .json => some .any

/-- A `PropertyType` value whose kind tree contains no `ref`. -/
def refFree : CfnRegistry.PropType → Bool
  | .array e => refFree e
  | .map e => refFree e
  | .ref _ => false
  | _ => true

end CodeGen

namespace CfnRegistry

theorem lookup1_updateAt_self {α β : Type} [DecidableEq α] (l : List (α × β)) (k : α)
    (g : β → β) : lookup1 (updateAt l k g) k = (lookup1 l k).map g := by
  induction l with
  | nil => rfl
  | cons e rest ih =>
    obtain ⟨a, b⟩ := e
    by_cases h : a = k
    · subst h
      simp [updateAt, lookup1]
    · simp only [updateAt, if_neg h, lookup1]
      exact ih

theorem lookup1_updateAt_ne {α β : Type} [DecidableEq α] (l : List (α × β)) (k k' : α)
    (g : β → β) (h : k' ≠ k) : lookup1 (updateAt l k g) k' = lookup1 l k' := by
  induction l with
  | nil => rfl
  | cons e rest ih =>
    obtain ⟨a, b⟩ := e
    simp only [updateAt, lookup1]
    by_cases h2 : a = k'
    · rw [if_pos h2, if_pos h2]
      have h1 : ¬a = k := fun h1 => h (h2 ▸ h1 ▸ rfl)
      rw [if_neg h1]
    · rw [if_neg h2, if_neg h2]
      exact ih

theorem map_fst_updateAt {α β : Type} [DecidableEq α] (l : List (α × β)) (k : α)
    (g : β → β) : (updateAt l k g).map Prod.fst = l.map Prod.fst := by
  induction l with
  | nil => rfl
  | cons e rest ih =>
    obtain ⟨a, b⟩ := e
    simp only [updateAt, List.map_cons, ih]

theorem lookup1_append_left {α β : Type} [DecidableEq α] (l l2 : List (α × β)) (k : α)
    (v : β) (h : lookup1 l k = some v) : lookup1 (l ++ l2) k = some v := by
  induction l with
  | nil => simp [lookup1] at h
  | cons e rest ih =>
    by_cases h1 : e.1 = k
    · simp_all [lookup1]
    · simp only [lookup1, h1, if_false, List.cons_append] at h ⊢
      exact ih h

theorem lookup1_append_none {α β : Type} [DecidableEq α] (l l2 : List (α × β)) (k : α)
    (h : lookup1 l k = none) : lookup1 (l ++ l2) k = lookup1 l2 k := by
  induction l with
  | nil => rfl
  | cons e rest ih =>
    by_cases h1 : e.1 = k
    · simp [lookup1, h1] at h
    · simp only [lookup1, h1, if_false, List.cons_append] at h ⊢
      exact ih h

theorem lookup1_eq_none {α β : Type} [DecidableEq α] (l : List (α × β)) (k : α)
    (h : ∀ p ∈ l, p.1 ≠ k) : lookup1 l k = none := by
  induction l with
  | nil => rfl
  | cons e rest ih =>
    have h1 : e.1 ≠ k := h e (by simp)
    simp only [lookup1, h1, if_false]
    exact ih (fun p hp => h p (by simp [hp]))

theorem lookup1_mem {α β : Type} [DecidableEq α] (l : List (α × β)) (k : α) (v : β)
    (h : lookup1 l k = some v) : (k, v) ∈ l := by
  induction l with
  | nil => simp [lookup1] at h
  | cons e rest ih =>
    obtain ⟨a, b⟩ := e
    by_cases h1 : a = k
    · subst h1
      simp only [lookup1, if_pos rfl, if_true, eq_self_iff_true, Option.some.injEq] at h
      subst h
      exact List.mem_cons_self _ _
    · simp only [lookup1, if_neg h1] at h
      exact List.mem_cons_of_mem _ (ih h)

theorem interAll_mem (bs : List (List String)) (b : List String) (x : String) :
    x ∈ interAll b bs ↔ x ∈ b ∧ ∀ l ∈ bs, x ∈ l := by
  induction bs generalizing b with
  | nil => simp [interAll]
  | cons l bs ih =>
    have step : interAll b (l :: bs) = interAll (b.filter (fun x => decide (x ∈ l))) bs := rfl
    rw [step, ih]
    simp only [List.mem_filter, decide_eq_true_eq, List.mem_cons]
    constructor
    · rintro ⟨⟨hb, hl⟩, hall⟩
      exact ⟨hb, fun m hm => by
        rcases hm with rfl | hm
        · exact hl
        · exact hall m hm⟩
    · rintro ⟨hb, hall⟩
      exact ⟨⟨hb, hall l (by simp)⟩, fun m hm => hall m (by simp [hm])⟩

theorem CtxLe_refl (c : ImportCtx) : CtxLe c c :=
  ⟨le_refl _, fun _ td h => ⟨td, h, rfl⟩⟩

theorem CtxLe_trans {a b c : ImportCtx} (h1 : CtxLe a b) (h2 : CtxLe b c) : CtxLe a c := by
  refine ⟨le_trans h1.1 h2.1, fun i td h => ?_⟩
  obtain ⟨td1, hl1, hn1⟩ := h1.2 i td h
  obtain ⟨td2, hl2, hn2⟩ := h2.2 i td1 hl1
  exact ⟨td2, hl2, hn2.trans hn1⟩

theorem recordUse_typeDefs (ctx : ImportCtx) (id : Nat) :
    (recordUse ctx id).typeDefs = ctx.typeDefs := by
  unfold recordUse
  split <;> rfl

theorem recordUse_nextId (ctx : ImportCtx) (id : Nat) :
    (recordUse ctx id).nextId = ctx.nextId := by
  unfold recordUse
  split <;> rfl

theorem recordUse_inv (ctx : ImportCtx) (id : Nat) (h : CtxInv ctx) :
    CtxInv (recordUse ctx id) := by
  unfold recordUse
  split
  · exact h
  · next hm =>
    refine ⟨?_, h.2.1, h.2.2⟩
    simp only [List.nodup_append, List.nodup_cons, List.not_mem_nil, not_false_iff,
      List.nodup_nil, and_true, true_and]
    refine ⟨h.1, ?_⟩
    intro a ha hb
    simp only [List.mem_singleton] at hb
    exact hm (hb ▸ ha)

theorem recordUse_le (ctx : ImportCtx) (id : Nat) : CtxLe ctx (recordUse ctx id) := by
  constructor
  · rw [recordUse_nextId]
  · intro i td h
    rw [recordUse_typeDefs]
    exact ⟨td, h, rfl⟩

theorem addProblem_inv (ctx : ImportCtx) (m : String) (h : CtxInv ctx) :
    CtxInv (addProblem ctx m) := h

theorem addProblem_le (ctx : ImportCtx) (m : String) : CtxLe ctx (addProblem ctx m) :=
  ⟨le_refl _, fun _ td h => ⟨td, h, rfl⟩⟩

theorem alloc_inv (ctx : ImportCtx) (nm : String) (h : CtxInv ctx) :
    CtxInv (allocTypeDef ctx nm) := by
  obtain ⟨hu, hk, hb⟩ := h
  refine ⟨hu, ?_, ?_⟩
  · simp only [allocTypeDef, List.map_append, List.map_cons, List.map_nil,
      List.nodup_append, List.nodup_cons, List.not_mem_nil, not_false_iff,
      List.nodup_nil, and_true, true_and]
    refine ⟨hk, ?_⟩
    intro a ha hb2
    simp only [List.mem_singleton] at hb2
    exact absurd (hb a ha) (by simp [hb2])
  · intro i hi
    simp only [allocTypeDef, List.map_append, List.map_cons, List.map_nil,
      List.mem_append, List.mem_singleton] at hi
    rcases hi with hi | hi
    · exact Nat.lt_succ_of_lt (hb i hi)
    · simp [allocTypeDef, hi]

theorem alloc_le (ctx : ImportCtx) (nm : String) : CtxLe ctx (allocTypeDef ctx nm) := by
  refine ⟨Nat.le_succ _, fun i td h => ?_⟩
  exact ⟨td, lookup1_append_left _ _ _ _ h, rfl⟩

theorem allocV_inv (ctx : ImportCtx) (nm : String) (v : List (String × Nat))
    (h : CtxInv ctx) : CtxInv { allocTypeDef ctx nm with visited := v } :=
  alloc_inv ctx nm h

theorem allocV_le (ctx : ImportCtx) (nm : String) (v : List (String × Nat)) :
    CtxLe ctx { allocTypeDef ctx nm with visited := v } :=
  alloc_le ctx nm

theorem alloc_lookup_new (ctx : ImportCtx) (nm : String) (h : CtxInv ctx) :
    lookup1 (allocTypeDef ctx nm).typeDefs ctx.nextId =
      some { name := nm, properties := [] } := by
  have hnone : lookup1 ctx.typeDefs ctx.nextId = none := by
    apply lookup1_eq_none
    intro p hp he
    exact absurd (h.2.2 p.1 (List.mem_map_of_mem Prod.fst hp)) (by simp [he])
  show lookup1 (ctx.typeDefs ++ [(ctx.nextId, _)]) ctx.nextId = _
  rw [lookup1_append_none _ _ _ hnone]
  simp [lookup1]

theorem setTypeDefProps_inv (ctx : ImportCtx) (id : Nat)
    (fs : List (String × ResProperty)) (h : CtxInv ctx) :
    CtxInv (setTypeDefProps ctx id fs) := by
  obtain ⟨hu, hk, hb⟩ := h
  refine ⟨hu, ?_, ?_⟩
  · simpa only [setTypeDefProps, map_fst_updateAt] using hk
  · intro i hi
    rw [setTypeDefProps] at hi
    simp only at hi
    rw [map_fst_updateAt] at hi
    exact hb i hi

theorem setTypeDefProps_le (ctx : ImportCtx) (id : Nat)
    (fs : List (String × ResProperty)) : CtxLe ctx (setTypeDefProps ctx id fs) := by
  refine ⟨le_refl _, fun i td h => ?_⟩
  by_cases hi : i = id
  · subst hi
    refine ⟨{ td with properties := fs }, ?_, rfl⟩
    show lookup1 (updateAt ctx.typeDefs i _) i = _
    rw [lookup1_updateAt_self, h]
    rfl
  · refine ⟨td, ?_, rfl⟩
    show lookup1 (updateAt ctx.typeDefs id _) i = _
    rw [lookup1_updateAt_ne _ _ _ _ hi, h]

theorem setFieldReplacement_inv (ctx : ImportCtx) (id : Nat) (fname : String)
    (h : CtxInv ctx) : CtxInv (setFieldReplacement ctx id fname) := by
  obtain ⟨hu, hk, hb⟩ := h
  refine ⟨hu, ?_, ?_⟩
  · simpa only [setFieldReplacement, map_fst_updateAt] using hk
  · intro i hi
    rw [setFieldReplacement] at hi
    simp only at hi
    rw [map_fst_updateAt] at hi
    exact hb i hi

theorem BuildPost_ok (defs : List (String × SchemaNode)) (ctx : ImportCtx) (o : BuildOut)
    (c' : ImportCtx) : BuildPost defs ctx (.ok (o, c')) = (CtxInv c' ∧ CtxLe ctx c') := rfl

theorem BuildPost_err (defs : List (String × SchemaNode)) (ctx : ImportCtx)
    (e : RefNotFound) : BuildPost defs ctx (.error e) = (refTarget defs e.ref = none) := rfl

set_option maxHeartbeats 2000000 in
theorem build_post (defs : List (String × SchemaNode)) :
    ∀ (f : Nat) (job : BuildJob) (ctx : ImportCtx), CtxInv ctx →
      BuildPost defs ctx (build defs f job ctx) := by
  intro f
  induction f with
  | zero =>
    intro job ctx hinv
    cases job with
    | one hint node => exact ⟨addProblem_inv _ _ hinv, addProblem_le _ _⟩
    | fields req l => exact ⟨addProblem_inv _ _ hinv, addProblem_le _ _⟩
  | succ f ih =>
    intro job ctx hinv
    cases job with
    | fields req l =>
      cases l with
      | nil => exact ⟨hinv, CtxLe_refl ctx⟩
      | cons hd tl =>
        obtain ⟨n, s⟩ := hd
        have h1 := ih (.one n s) ctx hinv
        simp only [build, buildStep]
        cases hb1 : build defs f (.one n s) ctx with
        | error e =>
          rw [hb1] at h1
          exact h1
        | ok p =>
          obtain ⟨o1, ctx1⟩ := p
          rw [hb1, BuildPost_ok] at h1
          obtain ⟨hi1, hl1⟩ := h1
          simp only [hb1]
          have h2 := ih (.fields req tl) ctx1 hi1
          cases hb2 : build defs f (.fields req tl) ctx1 with
          | error e =>
            rw [hb2] at h2
            exact h2
          | ok p2 =>
            obtain ⟨o2, ctx2⟩ := p2
            rw [hb2, BuildPost_ok] at h2
            simp only [hb2]
            exact ⟨h2.1, CtxLe_trans hl1 h2.2⟩
    | one hint node =>
      simp only [build, buildStep]
      cases hr : node.ref with
      | some r =>
        simp only [hr]
        cases ht : refTarget defs r with
        | none =>
          simp only [ht]
          exact ht
        | some target =>
          simp only [ht]
          cases hv : lookup1 ctx.visited r with
          | some id =>
            simp only [hv]
            exact ⟨recordUse_inv ctx id hinv, recordUse_le ctx id⟩
          | none =>
            simp only [hv]
            by_cases hobj : (target.objectLike && !target.properties.isEmpty) = true
            · rw [if_pos hobj]
              have hinv1 :
                  CtxInv (recordUse
                    { allocTypeDef ctx (refName r) with
                      visited := ctx.visited ++ [(r, ctx.nextId)] } ctx.nextId) :=
                recordUse_inv _ _ (allocV_inv ctx (refName r) _ hinv)
              have hle1 : CtxLe ctx
                  (recordUse
                    { allocTypeDef ctx (refName r) with
                      visited := ctx.visited ++ [(r, ctx.nextId)] } ctx.nextId) :=
                CtxLe_trans (allocV_le ctx (refName r) _) (recordUse_le _ _)
              have hrec := ih (.fields (requiredOf defs target) target.properties) _ hinv1
              cases hb : build defs f (.fields (requiredOf defs target) target.properties)
                  (recordUse
                    { allocTypeDef ctx (refName r) with
                      visited := ctx.visited ++ [(r, ctx.nextId)] } ctx.nextId) with
              | error e =>
                rw [hb] at hrec
                simp only [hb]
                exact hrec
              | ok p =>
                obtain ⟨out, ctx2⟩ := p
                rw [hb, BuildPost_ok] at hrec
                simp only [hb]
                exact ⟨setTypeDefProps_inv _ _ _ hrec.1,
                  CtxLe_trans (CtxLe_trans hle1 hrec.2) (setTypeDefProps_le _ _ _)⟩
            · rw [if_neg hobj]
              exact ih (.one hint target) ctx hinv
      | none =>
        simp only [hr]
        by_cases ha : node.type = some "array"
        · rw [if_pos ha]
          cases hit : node.items with
          | none => exact ⟨addProblem_inv _ _ hinv, addProblem_le _ _⟩
          | some it =>
            simp only [hit]
            have hrec := ih (.one (hint ++ "Items") it) ctx hinv
            cases hb : build defs f (.one (hint ++ "Items") it) ctx with
            | error e =>
              rw [hb] at hrec
              simp only [hb]
              exact hrec
            | ok p =>
              obtain ⟨out, ctx2⟩ := p
              rw [hb, BuildPost_ok] at hrec
              simp only [hb]
              exact hrec
        · rw [if_neg ha]
          by_cases hs : node.type = some "string"
          · rw [if_pos hs]
            exact ⟨hinv, CtxLe_refl ctx⟩
          · rw [if_neg hs]
            by_cases hi2 : node.type = some "integer"
            · rw [if_pos hi2]
              exact ⟨hinv, CtxLe_refl ctx⟩
            · rw [if_neg hi2]
              by_cases hn : node.type = some "number"
              · rw [if_pos hn]
                exact ⟨hinv, CtxLe_refl ctx⟩
              · rw [if_neg hn]
                by_cases hbo : node.type = some "boolean"
                · rw [if_pos hbo]
                  exact ⟨hinv, CtxLe_refl ctx⟩
                · rw [if_neg hbo]
                  by_cases hob : node.objectLike = true
                  · rw [if_pos hob]
                    by_cases hemp : node.properties.isEmpty = true
                    · rw [if_pos hemp]
                      exact ⟨hinv, CtxLe_refl ctx⟩
                    · rw [if_neg hemp]
                      have hinv1 : CtxInv (recordUse (allocTypeDef ctx hint) ctx.nextId) :=
                        recordUse_inv _ _ (alloc_inv ctx hint hinv)
                      have hle1 : CtxLe ctx (recordUse (allocTypeDef ctx hint) ctx.nextId) :=
                        CtxLe_trans (alloc_le ctx hint) (recordUse_le _ _)
                      have hrec := ih (.fields (requiredOf defs node) node.properties) _ hinv1
                      cases hb : build defs f (.fields (requiredOf defs node) node.properties)
                          (recordUse (allocTypeDef ctx hint) ctx.nextId) with
                      | error e =>
                        rw [hb] at hrec
                        simp only [hb]
                        exact hrec
                      | ok p =>
                        obtain ⟨out, ctx2⟩ := p
                        rw [hb, BuildPost_ok] at hrec
                        simp only [hb]
                        exact ⟨setTypeDefProps_inv _ _ _ hrec.1,
                          CtxLe_trans (CtxLe_trans hle1 hrec.2) (setTypeDefProps_le _ _ _)⟩
                  · rw [if_neg hob]
                    exact ⟨addProblem_inv _ _ hinv, addProblem_le _ _⟩

theorem build_ok_inv (defs : List (String × SchemaNode)) (f : Nat) (job : BuildJob)
    (ctx : ImportCtx) (o : BuildOut) (c' : ImportCtx)
    (h : build defs f job ctx = .ok (o, c')) (hinv : CtxInv ctx) :
    CtxInv c' ∧ CtxLe ctx c' := by
  have hp := build_post defs f job ctx hinv
  rw [h] at hp
  exact hp

theorem build_error_ref (defs : List (String × SchemaNode)) (f : Nat) (job : BuildJob)
    (ctx : ImportCtx) (e : RefNotFound)
    (h : build defs f job ctx = .error e) (hinv : CtxInv ctx) :
    refTarget defs e.ref = none := by
  have hp := build_post defs f job ctx hinv
  rw [h] at hp
  exact hp

theorem mark_preserves (segs : List String) : ∀ (ctx : ImportCtx) (t : PropType),
    (markReplacementPath ctx t segs).uses = ctx.uses ∧
    (markReplacementPath ctx t segs).nextId = ctx.nextId ∧
    (markReplacementPath ctx t segs).typeDefs.map Prod.fst = ctx.typeDefs.map Prod.fst := by
  induction segs with
  | nil => exact fun ctx t => ⟨rfl, rfl, rfl⟩
  | cons seg rest ih =>
    intro ctx t
    simp only [markReplacementPath]
    by_cases hs : seg = "*"
    · rw [if_pos hs]
      cases t with
      | array e => exact ih ctx e
      | string => exact ⟨rfl, rfl, rfl⟩
      | number => exact ⟨rfl, rfl, rfl⟩
      | boolean => exact ⟨rfl, rfl, rfl⟩
      | json => exact ⟨rfl, rfl, rfl⟩
      | map e => exact ⟨rfl, rfl, rfl⟩
      | ref id => exact ⟨rfl, rfl, rfl⟩
      | builtIn k => exact ⟨rfl, rfl, rfl⟩
    · rw [if_neg hs]
      cases t with
      | ref id =>
        cases rest with
        | nil => exact ⟨rfl, rfl, map_fst_updateAt _ _ _⟩
        | cons q qs =>
          cases h1 : lookup1 ctx.typeDefs id with
          | none => simp only [h1]; refine ⟨?_, ?_, ?_⟩ <;> trivial
          | some td =>
            simp only [h1]
            cases h2 : lookup1 td.properties seg with
            | none => simp only [h2]; refine ⟨?_, ?_, ?_⟩ <;> trivial
            | some p => simp only [h2]; exact ih ctx p.type
      | string => exact ⟨rfl, rfl, rfl⟩
      | number => exact ⟨rfl, rfl, rfl⟩
      | boolean => exact ⟨rfl, rfl, rfl⟩
      | json => exact ⟨rfl, rfl, rfl⟩
      | array e => exact ⟨rfl, rfl, rfl⟩
      | map e => exact ⟨rfl, rfl, rfl⟩
      | builtIn k => exact ⟨rfl, rfl, rfl⟩

theorem propagateSegs_preserves (ctx : ImportCtx) (props : List (String × ResProperty))
    (addl : List (List String)) (segs : List String) :
    (propagateSegs ctx props addl segs).1.uses = ctx.uses ∧
    (propagateSegs ctx props addl segs).1.typeDefs.map Prod.fst =
      ctx.typeDefs.map Prod.fst ∧
    (propagateSegs ctx props addl segs).2.1.map Prod.fst = props.map Prod.fst := by
  cases segs with
  | nil => exact ⟨rfl, rfl, rfl⟩
  | cons p rest =>
    cases rest with
    | nil =>
      simp only [propagateSegs]
      refine ⟨?_, ?_, ?_⟩ <;> first
      | trivial
      | exact map_fst_updateAt _ _ _
    | cons q qs =>
      simp only [propagateSegs]
      by_cases ht : isTagCollection ctx props p = true
      · rw [if_pos ht]
        exact ⟨rfl, rfl, rfl⟩
      · rw [if_neg ht]
        cases h1 : lookup1 props p with
        | none => simp only [h1]; refine ⟨?_, ?_, ?_⟩ <;> trivial
        | some pr =>
          simp only [h1]
          obtain ⟨hu, _, hk⟩ := mark_preserves (q :: qs) ctx pr.type
          refine ⟨hu, hk, ?_⟩
          trivial

theorem propagateList_preserves (paths : List String) :
    ∀ (ctx : ImportCtx) (props : List (String × ResProperty)) (addl : List (List String)),
    (propagateList ctx props addl paths).1.uses = ctx.uses ∧
    (propagateList ctx props addl paths).1.typeDefs.map Prod.fst =
      ctx.typeDefs.map Prod.fst ∧
    (propagateList ctx props addl paths).2.1.map Prod.fst = props.map Prod.fst := by
  induction paths with
  | nil => exact fun ctx props addl => ⟨rfl, rfl, rfl⟩
  | cons path rest ih =>
    intro ctx props addl
    simp only [propagateList]
    cases hp : propagateSegs ctx props addl (propPath path) with
    | mk c2 pa =>
      obtain ⟨p2, a2⟩ := pa
      have h1 := propagateSegs_preserves ctx props addl (propPath path)
      rw [hp] at h1
      have h2 := ih c2 p2 a2
      exact ⟨h2.1.trans h1.1, h2.2.1.trans h1.2.1, h2.2.2.trans h1.2.2⟩

theorem finalRequired_mem (own : List String) (branches : List (List String)) (x : String) :
    x ∈ finalRequired own branches ↔
      x ∈ own ∨ (branches ≠ [] ∧ ∀ l ∈ branches, x ∈ l) := by
  cases branches with
  | nil => simp [finalRequired]
  | cons b bs =>
    simp only [finalRequired, List.mem_append, List.mem_filter, decide_eq_true_eq,
      interAll_mem, ne_eq, reduceCtorEq, not_false_iff, true_and, List.mem_cons]
    constructor
    · rintro (h | ⟨⟨hb, hall⟩, _⟩)
      · exact Or.inl h
      · refine Or.inr (fun m hm => ?_)
        rcases hm with rfl | hm
        · exact hb
        · exact hall m hm
    · rintro (h | hall)
      · exact Or.inl h
      · by_cases ho : x ∈ own
        · exact Or.inl ho
        · exact Or.inr ⟨⟨hall b (by simp), fun m hm => hall m (by simp [hm])⟩, ho⟩

theorem lookup1_finalProperties_none (props : List (String × ResProperty))
    (ro co : List String) (X : String) (h : roOnly ro co X = true) :
    lookup1 (finalProperties props ro co) X = none := by
  induction props with
  | nil => rfl
  | cons e rest ih =>
    obtain ⟨k, v⟩ := e
    by_cases hk : k = X
    · subst hk
      simp only [finalProperties, List.filter_cons, h, Bool.not_true, if_false]
      simpa [finalProperties] using ih
    · simp only [finalProperties, List.filter_cons]
      by_cases hp : roOnly ro co k = true
      · simp only [hp, Bool.not_true, if_false]
        simpa [finalProperties] using ih
      · simp only [Bool.not_eq_true] at hp
        simp only [hp, Bool.not_false, if_true, lookup1, if_neg hk]
        simpa [finalProperties] using ih

theorem lookup1_finalProperties_keep (props : List (String × ResProperty))
    (ro co : List String) (X : String) (h : roOnly ro co X = false) :
    lookup1 (finalProperties props ro co) X = lookup1 props X := by
  induction props with
  | nil => rfl
  | cons e rest ih =>
    obtain ⟨k, v⟩ := e
    by_cases hk : k = X
    · subst hk
      simp only [finalProperties, List.filter_cons, h, Bool.not_false, if_true, lookup1,
        if_pos rfl]
    · simp only [finalProperties, List.filter_cons]
      by_cases hp : roOnly ro co k = true
      · simp only [hp, Bool.not_true, if_false, lookup1, if_neg hk]
        simpa [finalProperties] using ih
      · simp only [Bool.not_eq_true] at hp
        simp only [hp, Bool.not_false, if_true, lookup1, if_neg hk]
        simpa [finalProperties] using ih

theorem attributesOf_mem (tds : List (Nat × TypeDef)) (props : List (String × ResProperty))
    (ro co : List String) (p : String) (h1 : p ∈ ro) (h2 : p ∉ co) :
    (String.intercalate "." (propPath p)) ∈ (attributesOf tds props ro co).map Prod.fst := by
  have hf : p ∈ ro.filter (fun q => !decide (q ∈ co)) :=
    List.mem_filter.mpr ⟨h1, by simp [h2]⟩
  refine List.mem_map.mpr
    ⟨(String.intercalate "." (propPath p), topResolve tds props (propPath p)), ?_, rfl⟩
  exact List.mem_map.mpr ⟨p, hf, rfl⟩

theorem attributesOf_not_mem (tds : List (Nat × TypeDef))
    (props : List (String × ResProperty)) (ro co : List String) (X : String)
    (h : ∀ q ∈ ro, q ∉ co → String.intercalate "." (propPath q) ≠ X) :
    X ∉ (attributesOf tds props ro co).map Prod.fst := by
  intro hmem
  obtain ⟨pair, hpair, hx⟩ := List.mem_map.mp hmem
  obtain ⟨q, hq, hq2⟩ := List.mem_map.mp hpair
  obtain ⟨hq_ro, hq_co⟩ := List.mem_filter.mp hq
  refine h q hq_ro ?_ ?_
  · simpa using hq_co
  · rw [← hx, ← hq2]

theorem propagateSegs_single (ctx : ImportCtx) (props : List (String × ResProperty))
    (addl : List (List String)) (p : String) :
    propagateSegs ctx props addl [p] = (ctx, setPropReplacement props p, addl) := rfl

theorem propagateSegs_tag (ctx : ImportCtx) (props : List (String × ResProperty))
    (addl : List (List String)) (p q : String) (qs : List String)
    (ht : isTagCollection ctx props p = true) :
    propagateSegs ctx props addl (p :: q :: qs) = (ctx, props, addl ++ [p :: q :: qs]) := by
  simp only [propagateSegs]
  rw [if_pos ht]

theorem propagateSegs_nested (ctx : ImportCtx) (props : List (String × ResProperty))
    (addl : List (List String)) (p q : String) (qs : List String) (pr : ResProperty)
    (ht : isTagCollection ctx props p = false) (hl : lookup1 props p = some pr) :
    propagateSegs ctx props addl (p :: q :: qs) =
      (markReplacementPath ctx pr.type (q :: qs), props, addl) := by
  simp only [propagateSegs]
  rw [if_neg (by simp [ht])]
  simp only [hl]

theorem mark_ref_single (ctx : ImportCtx) (id : Nat) (fl : String) (hf : fl ≠ "*") :
    markReplacementPath ctx (.ref id) [fl] = setFieldReplacement ctx id fl := by
  simp only [markReplacementPath]
  rw [if_neg hf]

theorem mark_wildcard (ctx : ImportCtx) (e : PropType) (rest : List String) :
    markReplacementPath ctx (.array e) ("*" :: rest) = markReplacementPath ctx e rest := by
  simp [markReplacementPath]

theorem lookup1_setPropReplacement_self (props : List (String × ResProperty)) (nm : String) :
    lookup1 (setPropReplacement props nm) nm =
      (lookup1 props nm).map (fun p => { p with causesReplacement := .yes }) :=
  lookup1_updateAt_self props nm _

theorem lookup1_setFieldReplacement_self (ctx : ImportCtx) (id : Nat) (fl : String) :
    lookup1 (setFieldReplacement ctx id fl).typeDefs id =
      (lookup1 ctx.typeDefs id).map
        (fun td => { td with properties := setPropReplacement td.properties fl }) :=
  lookup1_updateAt_self ctx.typeDefs id _

theorem ctx0_inv (db : Db) (h : DbInv db) : CtxInv (ctx0Of db) :=
  ⟨List.nodup_nil, h.1, h.2⟩

/-- **C1.** For every schema node, the final required set is the union of the
own required list with the intersection across all branch required-lists
(taken only when at least one branch set exists); the `oneOf` example with
branch lists `[Mutex1, InBoth]` and `[Mutex2, InBoth]` makes exactly
`InBoth` required, and the `anyOf` example with branch lists `[prop1]` and
`[prop2]` and no own required list makes no property required. -/
theorem claim_C1_requiredness :
    (∀ (own : List String) (branches : List (List String)) (x : String),
      x ∈ finalRequired own branches ↔
        x ∈ own ∨ (branches ≠ [] ∧ ∀ l ∈ branches, x ∈ l)) ∧
    (importCloudFormationRegistryResource emptyDatabase testOneOfRequired).db.resources.map
        (fun r => r.properties.map (fun p => (p.1, p.2.required))) =
      [[("Mutex1", false), ("Mutex2", false), ("InBoth", true)]] ∧
    (importCloudFormationRegistryResource emptyDatabase testAnyOfRequired).db.resources.map
        (fun r => r.properties.map (fun p => (p.1, p.2.required))) =
      [[("DataSourceConfiguration", false)]] ∧
    (lookup1 (importCloudFormationRegistryResource emptyDatabase
        testAnyOfRequired).db.typeDefs 0).map
        (fun td => (td.name, td.properties.map (fun q => (q.1, q.2.required)))) =
      some ("DataSourceConfiguration", [("prop1", false), ("prop2", false)]) :=
  ⟨finalRequired_mem, by decide, by decide, by decide⟩

/-- Witness for C1: `InBoth` is required under the two `oneOf` branch
lists. -/
theorem claim_C1_requiredness_witness :
    "InBoth" ∈ finalRequired [] [["Mutex1", "InBoth"], ["Mutex2", "InBoth"]] :=
  (claim_C1_requiredness.1 [] [["Mutex1", "InBoth"], ["Mutex2", "InBoth"]] "InBoth").mpr
    (by decide)

/-- **C2.** A declared property whose path is read-only and not create-only
disappears from the final property mapping and appears as an attribute
named after its path; a path that is also create-only leaves the property
mapping untouched at that name and contributes no attribute; the three
read-only test resources import accordingly. -/
theorem claim_C2_readonly_classification :
    (∀ (props : List (String × ResProperty)) (ro co : List String) (X : String),
      ("/properties/" ++ X) ∈ ro → ("/properties/" ++ X) ∉ co →
        lookup1 (finalProperties props ro co) X = none) ∧
    (∀ (tds : List (Nat × TypeDef)) (props : List (String × ResProperty))
       (ro co : List String) (p : String), p ∈ ro → p ∉ co →
        (String.intercalate "." (propPath p)) ∈ (attributesOf tds props ro co).map Prod.fst) ∧
    (∀ (props : List (String × ResProperty)) (ro co : List String) (X : String),
      ("/properties/" ++ X) ∈ co →
        lookup1 (finalProperties props ro co) X = lookup1 props X) ∧
    (∀ (tds : List (Nat × TypeDef)) (props : List (String × ResProperty))
       (ro co : List String) (X : String),
      (∀ q ∈ ro, q ∉ co → String.intercalate "." (propPath q) ≠ X) →
        X ∉ (attributesOf tds props ro co).map Prod.fst) ∧
    (importCloudFormationRegistryResource emptyDatabase testReadOnly).db.resources.map
        (fun r => (r.properties.map Prod.fst, r.attributes.map Prod.fst)) =
      [(["Property"], ["Id"])] ∧
    (importCloudFormationRegistryResource emptyDatabase
        testReadOnlyCreateOnly).db.resources.map
        (fun r => (r.properties.map Prod.fst, r.attributes.map Prod.fst)) =
      [(["ReplacementProperty"], ["Id"])] := by
  refine ⟨?_, attributesOf_mem, ?_, attributesOf_not_mem, by decide, by decide⟩
  · intro props ro co X h1 h2
    exact lookup1_finalProperties_none props ro co X (by simp [roOnly, h1, h2])
  · intro props ro co X h2
    exact lookup1_finalProperties_keep props ro co X (by simp [roOnly, h2])

/-- Witness for C2: in the two-property resource, `Id` is removed from the
final property mapping by its read-only path. -/
theorem claim_C2_readonly_classification_witness :
    lookup1 (finalProperties
      [("Id", { type := .string, required := false, causesReplacement := .unspecified })]
      ["/properties/Id"] []) "Id" = none :=
  claim_C2_readonly_classification.1 _ ["/properties/Id"] [] "Id" (by decide) (by decide)

/-- **C6.** A `createOnlyProperties` path naming a top-level property marks
that property `causesReplacement = yes` directly; a path descending into a
referenced type definition, also through a `*` wildcard array-element
segment, marks the named field inside the shared type-definition entity, so
the flag is observed through every property whose type reaches that
definition; the immutability test resource imports accordingly. -/
theorem claim_C6_immutability_propagation :
    (∀ (ctx : ImportCtx) (props : List (String × ResProperty)) (addl : List (List String))
       (p : String),
      propagateSegs ctx props addl [p] = (ctx, setPropReplacement props p, addl)) ∧
    (∀ (props : List (String × ResProperty)) (p : String),
      lookup1 (setPropReplacement props p) p =
        (lookup1 props p).map (fun pr => { pr with causesReplacement := .yes })) ∧
    (∀ (ctx : ImportCtx) (id : Nat) (fl : String), fl ≠ "*" →
      markReplacementPath ctx (.ref id) [fl] = setFieldReplacement ctx id fl) ∧
    (∀ (ctx : ImportCtx) (e : PropType) (rest : List String),
      markReplacementPath ctx (.array e) ("*" :: rest) = markReplacementPath ctx e rest) ∧
    (∀ (ctx : ImportCtx) (id : Nat) (fl : String),
      lookup1 (setFieldReplacement ctx id fl).typeDefs id =
        (lookup1 ctx.typeDefs id).map
          (fun td => { td with properties := setPropReplacement td.properties fl })) ∧
    (importCloudFormationRegistryResource emptyDatabase testImmutability).db.resources.map
        (fun r => r.properties.map (fun p => (p.1, p.2.type, p.2.causesReplacement))) =
      [[("Prop1", .string, .yes), ("Prop2", .ref 0, .unspecified),
        ("Prop3", .array (.ref 1), .unspecified)]] ∧
    ((importCloudFormationRegistryResource emptyDatabase testImmutability).db.follow
        "AWS::Test::Resource").map
        (fun td => (td.name,
          (lookup1 td.properties "ImmutableField").map (fun q => q.causesReplacement))) =
      [("Type1", some .yes), ("Type2", some .yes)] :=
  ⟨propagateSegs_single, lookup1_setPropReplacement_self, mark_ref_single, mark_wildcard,
    lookup1_setFieldReplacement_self, by decide, by decide⟩

/-- Witness for C6: marking the field `F` of the referenced definition `5`
through a one-segment remainder path. -/
theorem claim_C6_immutability_propagation_witness :
    markReplacementPath emptyCtxW (.ref 5) ["F"] = setFieldReplacement emptyCtxW 5 "F" :=
  claim_C6_immutability_propagation.2.2.1 emptyCtxW 5 "F" (by decide)

/-- **C7.** A `createOnlyProperties` path traversing the resource's tag-like
collection mutates no type definition: the propagation step returns
the import state unchanged and only appends the path's segments to
`additionalReplacementProperties`; importing the tags test resource yields
`additionalReplacementProperties = [[Tags, *, Key]]` and the Tag type
definition keeps every `causesReplacement` unspecified. -/
theorem claim_C7_tag_collection_frame :
    (∀ (ctx : ImportCtx) (props : List (String × ResProperty)) (addl : List (List String))
       (p q : String) (qs : List String), isTagCollection ctx props p = true →
        propagateSegs ctx props addl (p :: q :: qs) = (ctx, props, addl ++ [p :: q :: qs])) ∧
    (importCloudFormationRegistryResource emptyDatabase testTags).db.resources.map
        (fun r => r.additionalReplacementProperties) = [[["Tags", "*", "Key"]]] ∧
    (importCloudFormationRegistryResource emptyDatabase testTags).db.typeDefs =
      [(0, { name := "Tag", properties :=
        [("Key", { type := .string, required := true, causesReplacement := .unspecified }),
         ("Value", { type := .string, required := true,
                     causesReplacement := .unspecified })] })] :=
  ⟨propagateSegs_tag, by decide, by decide⟩

/-- Witness for C7: one tag-path propagation step on a concrete tag-shaped
state leaves the state untouched and appends the segments. -/
theorem claim_C7_tag_collection_frame_witness :
    propagateSegs tagCtxW tagPropsW [] ["Tags", "*", "Key"] =
      (tagCtxW, tagPropsW, [["Tags", "*", "Key"]]) :=
  claim_C7_tag_collection_frame.1 tagCtxW tagPropsW [] "Tags" "*" ["Key"] (by decide)

/-- **C8.** Compound read-only paths `/properties/CompoundProp`,
`/properties/CompoundProp/Id` and `/properties/CompoundProp/Property` on a
resource with declared property `CompoundProp` of fields `Id` and
`Property` yield exactly the attributes `CompoundProp`, `CompoundProp.Id`
and `CompoundProp.Property` (dot-joined, the strict-prefix path included),
and `CompoundProp` is removed from the resource's property mapping. -/
theorem claim_C8_compound_attributes :
    (importCloudFormationRegistryResource emptyDatabase testCompound).db.resources.map
        (fun r => (r.properties.map Prod.fst, r.attributes.map Prod.fst)) =
      [([], ["CompoundProp", "CompoundProp.Id", "CompoundProp.Property"])] := by
  decide

/-- **C9.** When an import fails, it fails with a `RefNotFound` error whose
pointer really does not resolve within the document, and the database is
left exactly as it was (no partially inserted entity); every other
irregularity is surfaced through the problem report of a successful
outcome, never by aborting. -/
theorem claim_C9_refnotfound_atomic (db : Db) (res : RegistryResource) (e : RefNotFound)
    (hdb : DbInv db)
    (h : (importCloudFormationRegistryResource db res).fatalError = some e) :
    (importCloudFormationRegistryResource db res).db = db ∧
      refTarget res.definitions e.ref = none := by
  unfold importCloudFormationRegistryResource at h ⊢
  cases hi : importResourceInner db res with
  | ok p =>
    obtain ⟨db2, probs⟩ := p
    rw [hi] at h
    simp at h
  | error e2 =>
    rw [hi] at h
    simp only [Option.some.injEq] at h
    subst h
    refine ⟨rfl, ?_⟩
    unfold importResourceInner at hi
    cases hb : build res.definitions (importFuel res)
        (.fields (requiredOf res.definitions res.asNode) res.properties) (ctx0Of db) with
    | error e3 =>
      rw [hb] at hi
      simp only [Except.error.injEq] at hi
      subst hi
      exact build_error_ref _ _ _ _ _ hb (ctx0_inv db hdb)
    | ok p2 =>
      obtain ⟨out, ctx⟩ := p2
      rw [hb] at hi
      exact absurd hi (by simp)

/-- Witness for C9: a resource whose only property references the missing
definition `#/definitions/Missing` aborts atomically. -/
theorem claim_C9_refnotfound_atomic_witness :
    (importCloudFormationRegistryResource emptyDatabase testBadRef).db = emptyDatabase ∧
      refTarget testBadRef.definitions "#/definitions/Missing" = none :=
  claim_C9_refnotfound_atomic emptyDatabase testBadRef { ref := "#/definitions/Missing" }
    (by constructor <;> simp [emptyDatabase]) (by decide)

theorem ref_cache_hit (defs : List (String × SchemaNode)) (f : Nat) (hint : String)
    (t : Option String) (r : String) (ps : List (String × SchemaNode))
    (it : Option SchemaNode) (rq : Option (List String)) (ones anys alls : List SchemaNode)
    (ctx : ImportCtx) (id : Nat) (tgt : SchemaNode)
    (h1 : refTarget defs r = some tgt) (h2 : lookup1 ctx.visited r = some id) :
    build defs (f + 1) (.one hint (.mk t (some r) ps it rq ones anys alls)) ctx =
      .ok (.one (.ref id), recordUse ctx id) := by
  rw [show build defs (f + 1) = buildStep defs (build defs f) from rfl]
  simp only [buildStep, SchemaNode.ref, h1, h2]

theorem import_nodup (res : RegistryResource) :
    ((importCloudFormationRegistryResource emptyDatabase res).db.usesType.map
      Prod.snd).Nodup ∧
    ((importCloudFormationRegistryResource emptyDatabase res).db.typeDefs.map
      Prod.fst).Nodup := by
  have hinv0 : CtxInv (ctx0Of emptyDatabase) :=
    ctx0_inv emptyDatabase ⟨by simp [emptyDatabase], by simp [emptyDatabase]⟩
  unfold importCloudFormationRegistryResource importResourceInner
  cases hb : build res.definitions (importFuel res)
      (.fields (requiredOf res.definitions res.asNode) res.properties)
      (ctx0Of emptyDatabase) with
  | error e =>
    simp only [hb]
    constructor <;> simp [emptyDatabase]
  | ok p =>
    obtain ⟨out, ctx⟩ := p
    simp only [hb]
    have hinv := (build_ok_inv _ _ _ _ _ _ hb hinv0).1
    have hpre := propagateList_preserves res.createOnlyProperties ctx
      (finalProperties out.fieldsOf res.readOnlyProperties res.createOnlyProperties) []
    constructor
    · simp only [emptyDatabase, List.nil_append, List.map_map]
      have hcomp : (Prod.snd ∘ fun i => (res.typeName, i)) = (id : Nat → Nat) := rfl
      rw [hcomp, List.map_id, hpre.1]
      exact hinv.1
    · rw [hpre.2.1]
      exact hinv.2.1

/-- **C3.** Within one resource import, a `$ref` whose target was already
resolved returns the cached `TypeDefinition` handle and only re-records
the `usesType` relation (which deduplicates); the resource's `usesType`
targets and the type-definition ids of an import are pairwise distinct; in
the two-properties-one-ref test resource, following `usesType` returns
exactly one entity, named `Property`. -/
theorem claim_C3_ref_identity :
    (∀ (defs : List (String × SchemaNode)) (f : Nat) (hint : String)
       (t : Option String) (r : String) (ps : List (String × SchemaNode))
       (it : Option SchemaNode) (rq : Option (List String))
       (ones anys alls : List SchemaNode) (ctx : ImportCtx) (id : Nat) (tgt : SchemaNode),
      refTarget defs r = some tgt → lookup1 ctx.visited r = some id →
        build defs (f + 1) (.one hint (.mk t (some r) ps it rq ones anys alls)) ctx =
          .ok (.one (.ref id), recordUse ctx id)) ∧
    (∀ res : RegistryResource,
      ((importCloudFormationRegistryResource emptyDatabase res).db.usesType.map
        Prod.snd).Nodup ∧
      ((importCloudFormationRegistryResource emptyDatabase res).db.typeDefs.map
        Prod.fst).Nodup) ∧
    ((importCloudFormationRegistryResource emptyDatabase testRefNamed).db.follow
        "AWS::Some::Type").map (fun t => t.name) = ["Property"] ∧
    (importCloudFormationRegistryResource emptyDatabase
        testRefNamed).db.usesType.length = 1 :=
  ⟨ref_cache_hit, import_nodup, by decide, by decide⟩

/-- Witness for C3: a second occurrence of `#/definitions/A` resolves
through the visited cache to the existing handle `0`. -/
theorem claim_C3_ref_identity_witness :
    build [("A", objN [("f", strN)])] 1
        (.one "h" (.mk none (some "#/definitions/A") [] none none [] [] [])) cacheCtxW =
      .ok (.one (.ref 0), recordUse cacheCtxW 0) :=
  claim_C3_ref_identity.1 [("A", objN [("f", strN)])] 0 "h" none "#/definitions/A" [] none
    none [] [] [] cacheCtxW 0 (objN [("f", strN)]) rfl (by decide)

theorem build_array_node (defs : List (String × SchemaNode)) (f : Nat) (hint : String)
    (ps : List (String × SchemaNode)) (it : SchemaNode) (rq : Option (List String))
    (ones anys alls : List SchemaNode) (ctx : ImportCtx) :
    build defs (f + 1)
        (.one hint (.mk (some "array") none ps (some it) rq ones anys alls)) ctx =
      match build defs f (.one (hint ++ "Items") it) ctx with
      | .error e => .error e
      | .ok (out, ctx2) => .ok (.one (.array out.typeOf), ctx2) := rfl

theorem build_bare_object (defs : List (String × SchemaNode)) (f : Nat) (hint : String)
    (it : Option SchemaNode) (rq : Option (List String)) (ones anys alls : List SchemaNode)
    (ctx : ImportCtx) :
    build defs (f + 1) (.one hint (.mk (some "object") none [] it rq ones anys alls)) ctx =
      .ok (.one .json, ctx) := rfl

theorem build_one_no_typedef (defs : List (String × SchemaNode)) (f : Nat) (hint : String)
    (node : SchemaNode) (ctx : ImportCtx) (res : BuildOut) (c' : ImportCtx)
    (h : build defs (f + 1) (.one hint node) ctx = .ok (res, c'))
    (h1 : node.ref = none) (h3 : node.type ≠ some "array")
    (h2 : node.objectLike = false ∨ node.properties = []) :
    c'.typeDefs = ctx.typeDefs := by
  rw [show build defs (f + 1) = buildStep defs (build defs f) from rfl] at h
  simp only [buildStep, h1] at h
  rw [if_neg h3] at h
  by_cases hs : node.type = some "string"
  · rw [if_pos hs] at h
    simp only [Except.ok.injEq, Prod.mk.injEq] at h
    obtain ⟨-, rfl⟩ := h
    rfl
  · rw [if_neg hs] at h
    by_cases hi2 : node.type = some "integer"
    · rw [if_pos hi2] at h
      simp only [Except.ok.injEq, Prod.mk.injEq] at h
      obtain ⟨-, rfl⟩ := h
      rfl
    · rw [if_neg hi2] at h
      by_cases hn : node.type = some "number"
      · rw [if_pos hn] at h
        simp only [Except.ok.injEq, Prod.mk.injEq] at h
        obtain ⟨-, rfl⟩ := h
        rfl
      · rw [if_neg hn] at h
        by_cases hbo : node.type = some "boolean"
        · rw [if_pos hbo] at h
          simp only [Except.ok.injEq, Prod.mk.injEq] at h
          obtain ⟨-, rfl⟩ := h
          rfl
        · rw [if_neg hbo] at h
          by_cases hob : node.objectLike = true
          · rcases h2 with h2 | h2
            · rw [h2] at hob
              exact absurd hob (by simp)
            · rw [if_pos hob] at h
              have hemp : node.properties.isEmpty = true := by
                rw [h2]
                rfl
              rw [if_pos hemp] at h
              simp only [Except.ok.injEq, Prod.mk.injEq] at h
              obtain ⟨-, rfl⟩ := h
              rfl
          · rw [if_neg hob] at h
            simp only [Except.ok.injEq, Prod.mk.injEq] at h
            obtain ⟨-, rfl⟩ := h
            rfl

/-- **C4.** A schema node of type `array` resolves to
`array{element := typeFromSchemaNode(items)}` and itself never becomes a
type definition; a node of type `object` with no declared properties
resolves to `json` with the state untouched; every other non-object-shaped
or property-less node leaves the type-definition table unchanged; in the
only-objects test resource, exactly the object definition with declared
properties yields a type definition. -/
theorem claim_C4_only_objects :
    (∀ (defs : List (String × SchemaNode)) (f : Nat) (hint : String)
       (ps : List (String × SchemaNode)) (it : SchemaNode) (rq : Option (List String))
       (ones anys alls : List SchemaNode) (ctx : ImportCtx),
      build defs (f + 1)
          (.one hint (.mk (some "array") none ps (some it) rq ones anys alls)) ctx =
        match build defs f (.one (hint ++ "Items") it) ctx with
        | .error e => .error e
        | .ok (out, ctx2) => .ok (.one (.array out.typeOf), ctx2)) ∧
    (∀ (defs : List (String × SchemaNode)) (f : Nat) (hint : String)
       (it : Option SchemaNode) (rq : Option (List String))
       (ones anys alls : List SchemaNode) (ctx : ImportCtx),
      build defs (f + 1)
          (.one hint (.mk (some "object") none [] it rq ones anys alls)) ctx =
        .ok (.one .json, ctx)) ∧
    (∀ (defs : List (String × SchemaNode)) (f : Nat) (hint : String) (node : SchemaNode)
       (ctx : ImportCtx) (res : BuildOut) (c' : ImportCtx),
      build defs (f + 1) (.one hint node) ctx = .ok (res, c') →
      node.ref = none → node.type ≠ some "array" →
      (node.objectLike = false ∨ node.properties = []) →
        c'.typeDefs = ctx.typeDefs) ∧
    ((importCloudFormationRegistryResource emptyDatabase testOnlyObjects).db.follow
        "AWS::Test::Resource").map (fun t => t.name) = ["Type3"] ∧
    (importCloudFormationRegistryResource emptyDatabase testOnlyObjects).db.resources.map
        (fun r => r.properties.map (fun p => (p.1, p.2.type))) =
      [[("Prop1", .array .string), ("Prop2", .json), ("Prop3", .ref 0)]] :=
  ⟨build_array_node, build_bare_object, build_one_no_typedef, by decide, by decide⟩

/-- Witness for C4: a node of unrecognized type resolves without touching
the type-definition table. -/
theorem claim_C4_only_objects_witness :
    (addProblem emptyCtxW "unmodeled schema shape at h").typeDefs = emptyCtxW.typeDefs :=
  claim_C4_only_objects.2.2.1 [] 0 "h" (.mk (some "weird") none [] none none [] [] [])
    emptyCtxW (.one .json) (addProblem emptyCtxW "unmodeled schema shape at h") rfl rfl
    (by decide) (Or.inl (by decide))

theorem inline_object_creates (defs : List (String × SchemaNode)) (f : Nat) (hint : String)
    (phd : String × SchemaNode) (ptl : List (String × SchemaNode)) (it : Option SchemaNode)
    (rq : Option (List String)) (ones anys alls : List SchemaNode) (ctx : ImportCtx)
    (res : BuildOut) (c' : ImportCtx) (hinv : CtxInv ctx)
    (h : build defs (f + 1)
        (.one hint (.mk (some "object") none (phd :: ptl) it rq ones anys alls)) ctx =
      .ok (res, c')) :
    res = .one (.ref ctx.nextId) ∧
      ∃ td, lookup1 c'.typeDefs ctx.nextId = some td ∧ td.name = hint := by
  rw [show build defs (f + 1) = buildStep defs (build defs f) from rfl] at h
  simp only [buildStep, SchemaNode.ref, SchemaNode.type, SchemaNode.objectLike,
    SchemaNode.properties] at h
  rw [if_neg (by decide), if_neg (by decide), if_neg (by decide), if_neg (by decide),
    if_neg (by decide)] at h
  simp only [beq_self_eq_true, Bool.true_or, List.isEmpty_cons, Bool.false_eq_true,
    eq_self_iff_true, if_true, if_false] at h
  cases hrec : build defs f
      (.fields (requiredOf defs (.mk (some "object") none (phd :: ptl) it rq ones anys alls))
        (phd :: ptl))
      (recordUse (allocTypeDef ctx hint) ctx.nextId) with
  | error e =>
    rw [hrec] at h
    exact absurd h (by simp)
  | ok p =>
    obtain ⟨out, ctx2⟩ := p
    rw [hrec] at h
    simp only [Except.ok.injEq, Prod.mk.injEq] at h
    obtain ⟨hres, hc⟩ := h
    subst hc
    refine ⟨hres.symm, ?_⟩
    have hctx1 : lookup1 (recordUse (allocTypeDef ctx hint) ctx.nextId).typeDefs
        ctx.nextId = some { name := hint, properties := [] } := by
      rw [recordUse_typeDefs]
      exact alloc_lookup_new ctx hint hinv
    have hinv1 : CtxInv (recordUse (allocTypeDef ctx hint) ctx.nextId) :=
      recordUse_inv _ _ (alloc_inv ctx hint hinv)
    obtain ⟨td2, hl2, hn2⟩ :=
      (build_ok_inv _ _ _ _ _ _ hrec hinv1).2.2 ctx.nextId _ hctx1
    refine ⟨{ td2 with properties := out.fieldsOf }, ?_, hn2⟩
    show lookup1 (updateAt ctx2.typeDefs ctx.nextId _) ctx.nextId = _
    rw [lookup1_updateAt_self, hl2]
    rfl

/-- **C5.** An inline object schema node, reached without `$ref`, that
becomes a type definition is named after the owning property (the naming
hint); the element schema of an array is translated under the hint with
suffix `Items` appended; the `Banana` test resource yields a type
definition named `Banana` and the `Bananas` array test resource one named
`BananasItems`. -/
theorem claim_C5_anonymous_naming :
    (∀ (defs : List (String × SchemaNode)) (f : Nat) (hint : String)
       (phd : String × SchemaNode) (ptl : List (String × SchemaNode))
       (it : Option SchemaNode) (rq : Option (List String))
       (ones anys alls : List SchemaNode) (ctx : ImportCtx) (res : BuildOut)
       (c' : ImportCtx), CtxInv ctx →
      build defs (f + 1)
          (.one hint (.mk (some "object") none (phd :: ptl) it rq ones anys alls)) ctx =
        .ok (res, c') →
      res = .one (.ref ctx.nextId) ∧
        ∃ td, lookup1 c'.typeDefs ctx.nextId = some td ∧ td.name = hint) ∧
    (∀ (defs : List (String × SchemaNode)) (f : Nat) (hint : String)
       (ps : List (String × SchemaNode)) (it : SchemaNode) (rq : Option (List String))
       (ones anys alls : List SchemaNode) (ctx : ImportCtx),
      build defs (f + 1)
          (.one hint (.mk (some "array") none ps (some it) rq ones anys alls)) ctx =
        match build defs f (.one (hint ++ "Items") it) ctx with
        | .error e => .error e
        | .ok (out, ctx2) => .ok (.one (.array out.typeOf), ctx2)) ∧
    ((importCloudFormationRegistryResource emptyDatabase testBanana).db.follow
        "AWS::Some::Type").map (fun t => t.name) = ["Banana"] ∧
    ((importCloudFormationRegistryResource emptyDatabase testBananas).db.follow
        "AWS::Some::Type").map (fun t => t.name) = ["BananasItems"] :=
  ⟨fun defs f hint phd ptl it rq ones anys alls ctx res c' hinv h =>
      inline_object_creates defs f hint phd ptl it rq ones anys alls ctx res c' hinv h,
    build_array_node, by decide, by decide⟩

/-- Witness for C5: building the inline `Banana` object registers a type
definition named `Banana` under the fresh handle `0`. -/
theorem claim_C5_anonymous_naming_witness :
    BuildOut.one (.ref 0) = .one (.ref emptyCtxW.nextId) ∧
      ∃ td, lookup1 [(0, ({ name := "Banana", properties :=
          [("color", { type := .string, required := true })] } : TypeDef))]
        emptyCtxW.nextId = some td ∧ td.name = "Banana" :=
  claim_C5_anonymous_naming.1 [] 2 "Banana" ("color", strN) [] none (some ["color"])
    [] [] [] emptyCtxW (.one (.ref 0))
    { typeDefs := [(0, { name := "Banana", properties :=
        [("color", { type := .string, required := true })] })],
      nextId := 1, visited := [], uses := [0], problems := [] }
    (by refine ⟨List.nodup_nil, List.nodup_nil, ?_⟩; simp [emptyCtxW]) rfl

end CfnRegistry

namespace CodeGen

theorem typeFromSpecType_total (rt : Nat → Option GenType) (p : CfnRegistry.PropType)
    (h : refFree p = true) : (typeFromSpecType rt p).isSome = true := by
  induction p with
  | string => rfl
  | number => rfl
  | boolean => rfl
  | json => rfl
  | array e ih =>
    have h2 := ih (by simpa [refFree] using h)
    cases ht : typeFromSpecType rt e with
    | none => rw [ht] at h2; simp at h2
    | some t => simp [typeFromSpecType, ht]
  | map e ih =>
    have h2 := ih (by simpa [refFree] using h)
    cases ht : typeFromSpecType rt e with
    | none => rw [ht] at h2; simp at h2
    | some t => simp [typeFromSpecType, ht]
  | ref id => simp [refFree] at h
  | builtIn k => rfl

/-- **C10.** `TypeConverter.typeFromSpecType` is total over every
`PropertyType` whose kind tree avoids `ref`: `string`, `number` and
`boolean` map to the primitive types, `array` and `map` map recursively
over the translated element, `builtIn` of kind `tag` maps to
`CDK_CORE.CfnTag`, and every remaining shape, `json` included, falls
through to `Type.ANY`. -/
theorem claim_C10_typeFromSpecType_total :
    (∀ (rt : Nat → Option GenType) (p : CfnRegistry.PropType),
      refFree p = true → (typeFromSpecType rt p).isSome = true) ∧
    (∀ rt, typeFromSpecType rt .string = some .string) ∧
    (∀ rt, typeFromSpecType rt .number = some .number) ∧
    (∀ rt, typeFromSpecType rt .boolean = some .boolean) ∧
    (∀ rt e, typeFromSpecType rt (.array e) =
      Option.map GenType.arrayOf (typeFromSpecType rt e)) ∧
    (∀ rt e, typeFromSpecType rt (.map e) =
      Option.map GenType.mapOf (typeFromSpecType rt e)) ∧
    (∀ rt, typeFromSpecType rt (.builtIn "tag") = some .cfnTag) ∧
    (∀ (rt : Nat → Option GenType) (k : String), k ≠ "tag" →
      typeFromSpecType rt (.builtIn k) = some .any) ∧
    (∀ rt, typeFromSpecType rt .json = some .any) := by
  refine ⟨typeFromSpecType_total, fun _ => rfl, fun _ => rfl, fun _ => rfl,
    fun _ _ => rfl, fun _ _ => rfl, fun _ => rfl, ?_, fun _ => rfl⟩
  intro rt k hk
  simp only [typeFromSpecType]
  rw [if_neg (by simpa using hk)]

/-- Witness for C10: totality on the ref-free value `array string` and the
fall-through on the non-tag built-in kind `other`. -/
theorem claim_C10_typeFromSpecType_total_witness :
    ((typeFromSpecType (fun _ => none) (.array .string)).isSome = true) ∧
      typeFromSpecType (fun _ => none) (.builtIn "other") = some .any :=
  ⟨claim_C10_typeFromSpecType_total.1 (fun _ => none) (.array .string) (by decide),
    claim_C10_typeFromSpecType_total.2.2.2.2.2.2.2.1 (fun _ => none) "other" (by decide)⟩

end CodeGen
